import Mathlib

/-!
Verification of the FollowNet client core: platform resolution,
the streaming-event session state machine, CSV export, and the
chunked line-reassembly loop, as implemented in
`frontend/app/page.tsx` (`detectPlatform`, `handleStreamingScrape`,
`generateCSV`).  Strings are modelled as Lean `String`s, and the
byte/line level of the stream as lists of characters.
-/

namespace FollowNet

/-- Decides whether the list `p` is an initial segment of `l`
(the way `String.prototype.startsWith` compares character by character). -/
def leadsWith : List Char → List Char → Bool
  | [], _ => true
  | _ :: _, [] => false
  | p :: ps, c :: cs => p = c && leadsWith ps cs

/-- Decides whether `needle` occurs as a contiguous substring of `hay`,
the semantics of JavaScript `String.prototype.includes`. -/
def occursIn (needle : List Char) : List Char → Bool
  | [] => needle.isEmpty
  | c :: cs => leadsWith needle (c :: cs) || occursIn needle cs

/-- Lower-cases a URL character by character, modelling
`inputUrl.toLowerCase()` on the ASCII domain names the table uses. -/
def lowerChars (s : String) : List Char := s.data.map Char.toLower

/-- Embedding of `detectPlatform` from `frontend/app/page.tsx`: a chain of
substring tests over the lowercased URL, first hit wins, `none` for an
unsupported URL (the source returns `null`). -/
def detectPlatform (inputUrl : String) : Option String :=
  let url := lowerChars inputUrl
  if occursIn "github.com".data url then some "GitHub"
  else if occursIn "twitter.com".data url || occursIn "x.com".data url then some "Twitter/X"
  else if occursIn "producthunt.com".data url then some "Product Hunt"
  else if occursIn "weibo.com".data url then some "Weibo"
  else if occursIn "news.ycombinator.com".data url then some "Hacker News"
  else if occursIn "youtube.com".data url || occursIn "youtu.be".data url then some "YouTube"
  else if occursIn "reddit.com".data url then some "Reddit"
  else if occursIn "medium.com".data url then some "Medium"
  else if occursIn "bilibili.com".data url then some "Bilibili"
  else none

/-- The fixed ordered domain table the specification describes: each entry
is the list of domain strings for one platform together with its tag. -/
def platformTable : List (List String × String) :=
  [(["github.com"], "GitHub"),
   (["twitter.com", "x.com"], "Twitter/X"),
   (["producthunt.com"], "Product Hunt"),
   (["weibo.com"], "Weibo"),
   (["news.ycombinator.com"], "Hacker News"),
   (["youtube.com", "youtu.be"], "YouTube"),
   (["reddit.com"], "Reddit"),
   (["medium.com"], "Medium"),
   (["bilibili.com"], "Bilibili")]

/-- First-match lookup over a domain table: returns the tag of the first
entry one of whose domains occurs in the url, `none` otherwise. -/
def firstMatch (url : List Char) : List (List String × String) → Option String
  | [] => none
  | (ds, tag) :: rest =>
    if ds.any (fun d => occursIn d.data url) then some tag else firstMatch url rest

/-- Spec-side resolver: `resolve` as the spec words it, a first-match scan
of the fixed ordered `platformTable` against the lowercased URL. -/
def resolveSpec (inputUrl : String) : Option String :=
  firstMatch (lowerChars inputUrl) platformTable

/-- C1: `detectPlatform` is pure and deterministic, agrees on every URL with
the first-match scan of the fixed ordered domain table, and in particular
returns `none` (Unsupported) exactly when no table domain occurs in the
lowercased URL; calling it twice on the same URL yields the same result. -/
theorem detectPlatform_resolves_first_match :
    ∀ u : String, detectPlatform u = resolveSpec u ∧ detectPlatform u = detectPlatform u := by
  intro u
  refine ⟨?_, rfl⟩
  simp only [detectPlatform, resolveSpec, platformTable, firstMatch,
    List.any_cons, List.any_nil, Bool.or_false]

/-- The `UserData` record type from `frontend/types` (one extracted entity);
JavaScript numbers on the count fields are modelled as integers, the
optional `public_repos` as an `Option`. -/
structure UserData where
  username : String
  display_name : String
  bio : String
  avatar_url : String
  profile_url : String
  platform : String
  type : String
  follower_count : Int
  following_count : Int
  company : String
  location : String
  website : String
  twitter : String
  email : String
  public_repos : Option Int
  scraped_at : String
deriving DecidableEq, Repr

/-- The identity key of a record: platform plus username. -/
def idKey (u : UserData) : String × String := (u.platform, u.username)

/-- The seven event kinds the client's switch statement distinguishes. -/
inductive EventType
  | start
  | platform
  | progress
  | user_completed
  | stopped
  | complete
  | error
deriving DecidableEq, Repr

/-- A parsed stream event: the `type` tag plus the fields the client reads
from the JSON payload; absent fields are `none`. -/
structure Event where
  type : EventType
  message : String
  progress : Option Nat
  stage : Option String
  current_user : Option String
  processed_count : Option Nat
  total_count : Option Nat
  user_data : Option UserData
  data : Option (List UserData)
deriving DecidableEq, Repr

/-- The client-side session state: the accumulated `streamingData` list,
the `error` string, and the fields of the `streamingStatus` object. -/
structure SessionState where
  streamingData : List UserData
  error : String
  isStreaming : Bool
  progress : Nat
  message : String
  stage : Option String
  currentUser : Option String
  processedCount : Option Nat
  totalCount : Option Nat
deriving DecidableEq, Repr

/-- JavaScript `a || b` on an optional number: the left operand is kept
when it is present and nonzero, otherwise the right operand is used
(`0`, like `undefined`, is falsy). -/
def jsOr (o : Option Nat) (d : Nat) : Nat :=
  match o with
  | some v => if v = 0 then d else v
  | none => d

/-- One step of the event switch in `handleStreamingScrape`: the effect of
a single parsed event on the session state, case by case as in the source.
The `complete` and `error` cases replace the whole status object, so the
optional status fields revert to absent. -/
def processEvent (s : SessionState) (e : Event) : SessionState :=
  match e.type with
  | .start | .platform | .progress =>
    SessionState.mk s.streamingData s.error s.isStreaming
      (jsOr e.progress s.progress) e.message e.stage e.current_user
      e.processed_count e.total_count
  | .user_completed =>
    SessionState.mk (s.streamingData ++ e.user_data.toList) s.error s.isStreaming
      (jsOr e.progress s.progress) e.message s.stage e.current_user
      e.processed_count e.total_count
  | .stopped =>
    SessionState.mk s.streamingData s.error false s.progress e.message
      s.stage s.currentUser s.processedCount s.totalCount
  | .complete =>
    SessionState.mk (e.data.getD []) s.error false 100 e.message
      none none none none
  | .error =>
    SessionState.mk s.streamingData e.message false 0 ""
      none none none none

/-- Processing a list of events in order. -/
def processEvents (s : SessionState) (es : List Event) : SessionState :=
  es.foldl processEvent s

/-- The state `handleStreamingScrape` installs right before reading the
stream: cleared data and error, streaming on, progress zero. -/
def initState : SessionState :=
  SessionState.mk [] "" true 0 "正在连接..." none none none none

/-- The event kinds whose handlers leave the streaming state
(`stopped`, `complete`, `error`). -/
def isTerminal : EventType → Bool
  | .stopped | .complete | .error => true
  | _ => false

/-- A sample record used for concrete evaluations. -/
def r0 : UserData :=
  UserData.mk "alice" "Alice" "" "" "" "GitHub" "follower" 0 0 "" "" "" "" "" none "2024-01-01"

/-- A `user_completed` event carrying one record. -/
def userEvt (u : UserData) : Event :=
  Event.mk EventType.user_completed "" none none none none none (some u) none

/-- A `progress` event carrying a percent value and an optional processed count. -/
def progressEvt (p : Nat) (pc : Option Nat) : Event :=
  Event.mk EventType.progress "" (some p) none none pc none none none

/-- A terminal `complete` event carrying the final snapshot. -/
def completeEvt (d : List UserData) : Event :=
  Event.mk EventType.complete "" none none none none none none (some d)

/-- A terminal `error` event carrying a message. -/
def errorEvt (m : String) : Event :=
  Event.mk EventType.error m none none none none none none none

/-- The records a list of events delivers through `user_completed` payloads,
in stream order. -/
def acceptedRecords : List Event → List UserData
  | [] => []
  | e :: es =>
    (if e.type = EventType.user_completed then e.user_data.toList else [])
      ++ acceptedRecords es

lemma processEvent_data_of_not_complete (s : SessionState) (e : Event)
    (h : e.type ≠ EventType.complete) :
    (processEvent s e).streamingData
      = s.streamingData
        ++ (if e.type = EventType.user_completed then e.user_data.toList else []) := by
  cases ht : e.type
  case complete => exact absurd ht h
  all_goals simp [processEvent, ht]

lemma processEvents_data_append (s : SessionState) (es : List Event)
    (h : ∀ e ∈ es, e.type ≠ EventType.complete) :
    (processEvents s es).streamingData = s.streamingData ++ acceptedRecords es := by
  induction es generalizing s with
  | nil => simp [processEvents, acceptedRecords]
  | cons e es ih =>
    have he : e.type ≠ EventType.complete := h e (List.mem_cons_self e es)
    have hr : ∀ x ∈ es, x.type ≠ EventType.complete :=
      fun x hx => h x (List.mem_cons_of_mem e hx)
    calc (processEvents s (e :: es)).streamingData
        = (processEvents (processEvent s e) es).streamingData := rfl
      _ = (processEvent s e).streamingData ++ acceptedRecords es := ih (processEvent s e) hr
      _ = s.streamingData ++ acceptedRecords (e :: es) := by
          rw [processEvent_data_of_not_complete s e he, acceptedRecords, List.append_assoc]

lemma processEvent_not_streaming (s : SessionState) (e : Event)
    (h : s.isStreaming = false) : (processEvent s e).isStreaming = false := by
  cases ht : e.type <;> simp [processEvent, ht, h]

lemma processEvents_not_streaming (s : SessionState) (es : List Event)
    (h : s.isStreaming = false) : (processEvents s es).isStreaming = false := by
  induction es generalizing s with
  | nil => exact h
  | cons e es ih => exact ih (processEvent s e) (processEvent_not_streaming s e h)

lemma processEvent_terminal_not_streaming (s : SessionState) (e : Event)
    (h : isTerminal e.type = true) : (processEvent s e).isStreaming = false := by
  cases ht : e.type <;> simp [processEvent, ht] <;> simp [isTerminal, ht] at h

lemma processEvent_progress_le (s : SessionState) (e : Event)
    (hs : s.progress ≤ 100) (he : e.progress.getD 0 ≤ 100) :
    (processEvent s e).progress ≤ 100 := by
  cases ht : e.type <;> simp [processEvent, ht]
  case stopped => exact hs
  all_goals
    cases hp : e.progress with
    | none => simpa [jsOr] using hs
    | some v =>
      simp [jsOr]
      split
      · exact hs
      · simpa [hp] using he

/-- C2 counterexample: the client performs no deduplication — two
`user_completed` events carrying the same record leave the snapshot with two
entries of equal identity key, and appending the duplicate does change the
accumulated set. -/
theorem duplicate_key_is_appended :
    (processEvents initState [userEvt r0, userEvt r0]).streamingData = [r0, r0]
    ∧ idKey r0 = idKey r0
    ∧ (processEvents initState [userEvt r0, userEvt r0]).streamingData
        ≠ (processEvents initState [userEvt r0]).streamingData
    ∧ ¬ (processEvents initState [userEvt r0, userEvt r0]).streamingData.Pairwise
        (fun a b => idKey a ≠ idKey b) := by
  refine ⟨rfl, rfl, by decide, ?_⟩
  intro h
  have h2 : (processEvents initState [userEvt r0, userEvt r0]).streamingData
      = [r0, r0] := rfl
  rw [h2] at h
  exact (List.pairwise_cons.mp h).1 r0 (by simp) rfl

/-- C2 amended: the accumulated set mirrors the stream verbatim; as long as
no `complete` event replaces it, the snapshot is exactly the list of
`user_completed` payloads, so it is free of duplicate identity keys
precisely when the stream itself delivers pairwise-distinct keys. -/
theorem snapshot_dupfree_iff_stream_distinct (es : List Event)
    (hc : ∀ e ∈ es, e.type ≠ EventType.complete)
    (hd : (acceptedRecords es).Pairwise (fun a b => idKey a ≠ idKey b)) :
    ((processEvents initState es).streamingData).Pairwise
      (fun a b => idKey a ≠ idKey b) := by
  rw [processEvents_data_append initState es hc]
  simpa [initState] using hd

/-- C2 amended witness at a concrete one-record stream. -/
theorem snapshot_dupfree_iff_stream_distinct_witness :
    ((processEvents initState [userEvt r0]).streamingData).Pairwise
      (fun a b => idKey a ≠ idKey b) :=
  snapshot_dupfree_iff_stream_distinct [userEvt r0]
    (by intro e he; simp at he; subst he; simp [userEvt])
    (by simp [acceptedRecords, userEvt])

/-- C4 counterexample: both the tracked processed count and the progress
percent are copied from the event fields, so a later event with smaller
fields decreases them, and a field above 100 is stored verbatim. -/
theorem progress_copied_verbatim_can_decrease :
    (processEvents initState [progressEvt 50 (some 5)]).progress = 50
    ∧ (processEvents initState [progressEvt 50 (some 5), progressEvt 30 (some 3)]).progress = 30
    ∧ (processEvents initState [progressEvt 50 (some 5)]).processedCount = some 5
    ∧ (processEvents initState [progressEvt 50 (some 5), progressEvt 30 (some 3)]).processedCount
        = some 3
    ∧ (processEvents initState [progressEvt 150 none]).progress = 150
    ∧ 30 < 50 ∧ 100 < 150 :=
  ⟨rfl, rfl, rfl, rfl, rfl, by decide, by decide⟩

/-- C4 amended: progress is bounded by 100 only because the stream's fields
are (every event whose progress field is at most 100 keeps the state at most
100, whatever its kind), and a single non-`error` event does not decrease
progress provided its progress field is absent, zero, or at least the
current value (with the current value at most 100 for `complete`). -/
theorem progress_bounded_and_conditionally_monotone :
    (∀ s es, s.progress ≤ 100 → (∀ e ∈ es, e.progress.getD 0 ≤ 100) →
      (processEvents s es).progress ≤ 100)
    ∧ (∀ s e, e.type ≠ EventType.error → s.progress ≤ 100 →
      (e.progress = none ∨ e.progress = some 0 ∨ ∃ p, e.progress = some p ∧ s.progress ≤ p) →
      s.progress ≤ (processEvent s e).progress) := by
  constructor
  · intro s es
    induction es generalizing s with
    | nil => intro hs _; exact hs
    | cons e es ih =>
      intro hs hb
      exact ih (processEvent s e)
        (processEvent_progress_le s e hs (hb e (List.mem_cons_self e es)))
        (fun x hx => hb x (List.mem_cons_of_mem e hx))
  · intro s e hne hs hp
    cases ht : e.type <;> simp [processEvent, ht]
    case complete => exact hs
    case error => exact absurd ht hne
    all_goals
      rcases hp with h | h | ⟨p, hp, hsp⟩
      · simp [jsOr, h]
      · simp [jsOr, h]
      · simp only [jsOr, hp]
        split
        · exact Nat.le_refl _
        · exact hsp

/-- C4 amended witness at a concrete progress event. -/
theorem progress_bounded_and_conditionally_monotone_witness :
    (processEvents initState [progressEvt 50 (some 5)]).progress ≤ 100
    ∧ initState.progress ≤ (processEvent initState (progressEvt 50 (some 5))).progress :=
  ⟨progress_bounded_and_conditionally_monotone.1 initState [progressEvt 50 (some 5)]
      (by decide) (by decide),
    progress_bounded_and_conditionally_monotone.2 initState (progressEvt 50 (some 5))
      (by decide) (by decide) (Or.inr (Or.inr ⟨50, rfl, by decide⟩))⟩

/-- C5 counterexample: the event loop keeps dispatching after a terminal
event — a `user_completed` arriving after `complete` still appends its
record, so a later event does change the session state. -/
theorem events_after_terminal_still_mutate :
    (processEvents initState [completeEvt []]).isStreaming = false
    ∧ (processEvents initState [completeEvt []]).streamingData = []
    ∧ (processEvents initState [completeEvt [], userEvt r0]).streamingData = [r0] :=
  ⟨rfl, rfl, rfl⟩

/-- C5 amended: a terminal event does leave the streaming state, and no
later event re-enters it (no handler ever sets `isStreaming` back to true
within the event loop); later events are still processed, however, and can
mutate the rest of the state. -/
theorem terminal_turns_streaming_off_for_good :
    (∀ s e, isTerminal e.type = true → (processEvent s e).isStreaming = false)
    ∧ (∀ s es, s.isStreaming = false → (processEvents s es).isStreaming = false) :=
  ⟨processEvent_terminal_not_streaming, processEvents_not_streaming⟩

/-- C5 amended witness at a concrete terminal event and follow-up stream. -/
theorem terminal_turns_streaming_off_for_good_witness :
    (processEvent initState (completeEvt [])).isStreaming = false
    ∧ (processEvents (processEvent initState (completeEvt [])) [userEvt r0]).isStreaming
        = false :=
  ⟨terminal_turns_streaming_off_for_good.1 initState (completeEvt []) rfl,
    terminal_turns_streaming_off_for_good.2 (processEvent initState (completeEvt []))
      [userEvt r0]
      (terminal_turns_streaming_off_for_good.1 initState (completeEvt []) rfl)⟩

/-- C6: a `complete` event installs the event's `data` payload (the empty
list when absent) as the final record set — replacing, not extending, the
per-record stream — sets progress to 100, leaves the streaming state, and
resets the transient status fields; the error string is untouched. -/
theorem complete_installs_final_snapshot (s : SessionState) (e : Event)
    (h : e.type = EventType.complete) :
    processEvent s e
      = SessionState.mk (e.data.getD []) s.error false 100 e.message
          none none none none := by
  simp [processEvent, h]

/-- C6 witness at a concrete `complete` event. -/
theorem complete_installs_final_snapshot_witness :
    processEvent initState (completeEvt [r0])
      = SessionState.mk ((completeEvt [r0]).data.getD []) initState.error false 100
          (completeEvt [r0]).message none none none none :=
  complete_installs_final_snapshot initState (completeEvt [r0]) rfl

/-- C7: a `user_completed` event appends exactly its `user_data` payload at
the end of the accumulated list — one record when the payload is present,
nothing when it is absent — leaving all earlier records in place and order. -/
theorem user_completed_appends_one (s : SessionState) (e : Event)
    (h : e.type = EventType.user_completed) :
    (processEvent s e).streamingData = s.streamingData ++ e.user_data.toList := by
  simp [processEvent, h]

/-- C7 witness at a concrete `user_completed` event. -/
theorem user_completed_appends_one_witness :
    (processEvent initState (userEvt r0)).streamingData
      = initState.streamingData ++ (userEvt r0).user_data.toList :=
  user_completed_appends_one initState (userEvt r0) rfl

/-- Modelled from the spec: the EventEmitter and error-propagation contract
(the backend emitter is not part of the sources) — a session's stream is a
run of non-terminal events followed by exactly one terminal event
(`stopped`, `complete`, or `error`), after which the channel closes. -/
def emitterWellFormed (es : List Event) : Prop :=
  ∃ body t, es = body ++ [t]
    ∧ (∀ e ∈ body, isTerminal e.type = false)
    ∧ isTerminal t.type = true

/-- C8: an `error` event records the message as the session's error, leaves
the streaming state, and keeps the accumulated records; and a stream obeying
the spec's emitter contract contains exactly one terminal event, so a
started session's processing always ends out of the streaming state. -/
theorem error_event_is_terminal_failure :
    (∀ s e, e.type = EventType.error →
      (processEvent s e).error = e.message
      ∧ (processEvent s e).isStreaming = false
      ∧ (processEvent s e).streamingData = s.streamingData)
    ∧ (∀ es, emitterWellFormed es →
      (es.filter (fun e => isTerminal e.type)).length = 1
      ∧ (processEvents initState es).isStreaming = false) := by
  constructor
  · intro s e h
    exact ⟨by simp [processEvent, h], by simp [processEvent, h], by simp [processEvent, h]⟩
  · intro es hwf
    obtain ⟨body, t, rfl, hb, ht⟩ := hwf
    constructor
    · rw [List.filter_append]
      have hnil : body.filter (fun e => isTerminal e.type) = [] :=
        List.filter_eq_nil_iff.mpr (fun e he => by simp [hb e he])
      simp [hnil, ht]
    · have : processEvents initState (body ++ [t])
          = processEvent (processEvents initState body) t := by
        simp [processEvents, List.foldl_append]
      rw [this]
      exact processEvent_terminal_not_streaming _ t ht

/-- C8 witness at a concrete one-event error stream. -/
theorem error_event_is_terminal_failure_witness :
    ((processEvent initState (errorEvt "boom")).error = (errorEvt "boom").message
      ∧ (processEvent initState (errorEvt "boom")).isStreaming = false
      ∧ (processEvent initState (errorEvt "boom")).streamingData = initState.streamingData)
    ∧ (([errorEvt "boom"].filter (fun e => isTerminal e.type)).length = 1
      ∧ (processEvents initState [errorEvt "boom"]).isStreaming = false) :=
  ⟨error_event_is_terminal_failure.1 initState (errorEvt "boom") rfl,
    error_event_is_terminal_failure.2 [errorEvt "boom"]
      ⟨[], errorEvt "boom", rfl, by simp, rfl⟩⟩

/-- A JavaScript field value as `generateCSV` sees it: a string, a number,
or an absent (`undefined`) value. -/
inductive FieldVal
  | vstr (s : String)
  | vnum (n : Int)
  | vnone
deriving DecidableEq, Repr

/-- The fixed header list of `generateCSV`. -/
def csvHeaders : List String :=
  ["username", "display_name", "bio", "avatar_url", "profile_url",
   "platform", "type", "follower_count", "following_count",
   "company", "location", "website", "twitter", "email",
   "public_repos", "scraped_at"]

/-- The dynamic field lookup `user[header]` of `generateCSV`: a header name
selects the record's field; an unknown name yields `undefined`. -/
def userField (u : UserData) : String → FieldVal
  | "username" => .vstr u.username
  | "display_name" => .vstr u.display_name
  | "bio" => .vstr u.bio
  | "avatar_url" => .vstr u.avatar_url
  | "profile_url" => .vstr u.profile_url
  | "platform" => .vstr u.platform
  | "type" => .vstr u.type
  | "follower_count" => .vnum u.follower_count
  | "following_count" => .vnum u.following_count
  | "company" => .vstr u.company
  | "location" => .vstr u.location
  | "website" => .vstr u.website
  | "twitter" => .vstr u.twitter
  | "email" => .vstr u.email
  | "public_repos" =>
    match u.public_repos with
    | some n => .vnum n
    | none => .vnone
  | "scraped_at" => .vstr u.scraped_at
  | _ => .vnone

/-- Doubles every double-quote character, the `value.replace(/"/g, '""')`
step of `generateCSV`. -/
def escChars : List Char → List Char
  | [] => []
  | c :: cs => if c = '"' then '"' :: '"' :: escChars cs else c :: escChars cs

/-- The quoting condition of `generateCSV`: the value is a string containing
a comma, a double quote, or a newline. -/
def needsQuote (s : String) : Bool :=
  s.data.contains ',' || s.data.contains '"' || s.data.contains '\n'

/-- One cell of `generateCSV`: strings with special characters are wrapped
in doubled-quote escaping; every other value is `value || ''`, which in
JavaScript renders the number `0` and absent values as the empty string. -/
def csvCell : FieldVal → String
  | .vstr s => if needsQuote s then "\"" ++ String.mk (escChars s.data) ++ "\"" else s
  | .vnum n => if n = 0 then "" else toString n
  | .vnone => ""

/-- One data row of `generateCSV`: the cells of all headers joined by commas. -/
def csvRow (u : UserData) : String :=
  String.intercalate "," (csvHeaders.map (fun h => csvCell (userField u h)))

/-- Embedding of `generateCSV`: the comma-joined header line followed by one
row per record, all joined by newlines. -/
def generateCSV (data : List UserData) : String :=
  String.intercalate "\n" (String.intercalate "," csvHeaders :: data.map csvRow)

/-- A record whose optional repo count is present and zero. -/
def rA : UserData :=
  UserData.mk "alice" "Alice" "" "" "" "GitHub" "follower" 0 0 "" "" "" "" "" (some 0) "2024-01-01"

/-- The same record with the repo count absent. -/
def rB : UserData :=
  UserData.mk "alice" "Alice" "" "" "" "GitHub" "follower" 0 0 "" "" "" "" "" none "2024-01-01"

/-- C3: the export drops the number 0 — `value || ''` renders both the
number 0 and an absent field as the empty cell, so two different record
lists produce the same CSV text and no parser can recover the original
field values from it; the round-trip property fails at the number 0. -/
theorem generateCSV_confuses_zero :
    generateCSV [rA] = generateCSV [rB]
    ∧ rA ≠ rB
    ∧ rA.public_repos = some 0
    ∧ rB.public_repos = none
    ∧ rA.follower_count = 0
    ∧ csvCell (FieldVal.vnum 0) = "" :=
  ⟨rfl, by decide, rfl, rfl, rfl, rfl⟩

/-- One step of the stream-buffer loop's splitting: prepending a character
to an already split stream, newline opening a fresh complete line. -/
def consStep (c : Char) (r : List (List Char) × List Char) :
    List (List Char) × List Char :=
  if c = '\n' then ([] :: r.1, r.2)
  else
    match r.1 with
    | [] => ([], c :: r.2)
    | h :: t => ((c :: h) :: t, r.2)

/-- Splits a character stream at newlines the way
`buffer.split('\n')` followed by `buffer = lines.pop()` does: the first
component is the complete lines, the second the trailing partial line. -/
def splitLines : List Char → List (List Char) × List Char
  | [] => ([], [])
  | c :: cs => consStep c (splitLines cs)

/-- Glues a partial line onto the first of a list of line segments. -/
def mergeHead (x : List Char) : List (List Char) → List (List Char)
  | [] => []
  | h :: t => (x ++ h) :: t

lemma splitLines_no_newline (l : List Char) (h : '\n' ∉ l) :
    splitLines l = ([], l) := by
  induction l with
  | nil => rfl
  | cons c cs ih =>
    have hc : c ≠ '\n' := fun hc => h (hc ▸ List.mem_cons_self c cs)
    have hcs : '\n' ∉ cs := fun hm => h (List.mem_cons_of_mem c hm)
    simp [splitLines, ih hcs, consStep, hc]

lemma splitLines_snd_no_newline (l : List Char) : '\n' ∉ (splitLines l).2 := by
  induction l with
  | nil => simp [splitLines]
  | cons c cs ih =>
    by_cases hc : c = '\n'
    · simpa [splitLines, consStep, hc] using ih
    · rcases h1 : (splitLines cs).1 with _ | ⟨h, t⟩
      · simp only [splitLines, consStep, hc, if_neg hc, h1]
        intro hm
        rcases List.mem_cons.mp hm with h2 | h2
        · exact hc h2.symm
        · exact ih h2
      · simpa [splitLines, consStep, hc, h1] using ih

lemma splitLines_append (a b : List Char) :
    splitLines (a ++ b)
      = ((splitLines a).1 ++ mergeHead (splitLines a).2 (splitLines b).1,
         if (splitLines b).1.isEmpty then (splitLines a).2 ++ (splitLines b).2
         else (splitLines b).2) := by
  induction a with
  | nil =>
    rcases hb2 : splitLines b with ⟨lb, rb⟩
    rw [List.nil_append, hb2]
    cases lb <;> simp [splitLines, mergeHead]
  | cons c a ih =>
    rw [show (c :: a) ++ b = c :: (a ++ b) from rfl]
    rw [show splitLines (c :: (a ++ b)) = consStep c (splitLines (a ++ b)) from rfl]
    rw [ih]
    rw [show splitLines (c :: a) = consStep c (splitLines a) from rfl]
    by_cases hc : c = '\n'
    · simp [consStep, hc]
    · rcases h1 : (splitLines a).1 with _ | ⟨h, t⟩ <;>
        rcases h2 : (splitLines b).1 with _ | ⟨hb, tb⟩ <;>
        simp [consStep, hc, mergeHead, h1, h2]

/-- The chunked reading loop of `handleStreamingScrape`: each chunk is
appended to the carried buffer, the complete lines are emitted, and the
trailing partial line becomes the new buffer. -/
def feedChunks : List Char → List (List Char) → List (List Char) × List Char
  | buf, [] => ([], buf)
  | buf, ch :: rest =>
    let r := splitLines (buf ++ ch)
    let r2 := feedChunks r.2 rest
    (r.1 ++ r2.1, r2.2)

lemma feedChunks_eq (chunks : List (List Char)) (buf : List Char)
    (h : '\n' ∉ buf) :
    feedChunks buf chunks = splitLines (buf ++ chunks.flatten) := by
  induction chunks generalizing buf with
  | nil => simp [feedChunks, splitLines_no_newline buf h]
  | cons ch rest ih =>
    have hb := splitLines_snd_no_newline (buf ++ ch)
    calc feedChunks buf (ch :: rest)
        = ((splitLines (buf ++ ch)).1 ++ (feedChunks (splitLines (buf ++ ch)).2 rest).1,
           (feedChunks (splitLines (buf ++ ch)).2 rest).2) := rfl
      _ = splitLines (buf ++ (ch :: rest).flatten) := by
          rw [ih (splitLines (buf ++ ch)).2 hb]
          rw [splitLines_append (splitLines (buf ++ ch)).2 rest.flatten,
            splitLines_no_newline (splitLines (buf ++ ch)).2 hb]
          rw [show buf ++ (ch :: rest).flatten = (buf ++ ch) ++ rest.flatten by
            simp [List.flatten]]
          rw [splitLines_append (buf ++ ch) rest.flatten]
          simp

/-- C9: the buffered line reassembly is invariant under re-chunking — for
every partition of the stream into chunks, the loop emits exactly the
complete lines (and final buffer) that a single-chunk read would, namely
the newline split of the whole text. -/
theorem rechunking_emits_same_lines :
    ∀ chunks : List (List Char),
      feedChunks [] chunks = feedChunks [] [chunks.flatten]
      ∧ feedChunks [] chunks = splitLines chunks.flatten := by
  intro chunks
  have h1 : feedChunks [] chunks = splitLines chunks.flatten := by
    simpa using feedChunks_eq chunks [] (by simp)
  have h2 : feedChunks [] [chunks.flatten] = splitLines chunks.flatten := by
    simpa using feedChunks_eq [chunks.flatten] [] (by simp)
  exact ⟨h1.trans h2.symm, h1⟩

/-- A line handler step of the event loop: a line is dispatched only when it
starts with the `data: ` marker and its payload decodes to a known event;
`dec` models `JSON.parse` plus the classification of the `type` tag (it is
`none` on invalid JSON and on unknown tags, both of which the source
ignores — the parse error is caught, an unknown tag falls through the
switch). -/
def processLine (dec : List Char → Option Event) (s : SessionState)
    (l : List Char) : SessionState :=
  if leadsWith "data: ".data l then
    match dec (l.drop 6) with
    | some e => processEvent s e
    | none => s
  else s

/-- Processing a list of received lines in order. -/
def processLines (dec : List Char → Option Event) (s : SessionState)
    (ls : List (List Char)) : SessionState :=
  ls.foldl (processLine dec) s

/-- C10: a line without the `data: ` marker, and a line whose payload fails
to decode, leave the whole session state unchanged, and such a line never
aborts the processing of the surrounding lines. -/
theorem malformed_lines_are_inert :
    (∀ dec s l, leadsWith "data: ".data l = false → processLine dec s l = s)
    ∧ (∀ dec s l, dec (l.drop 6) = none → processLine dec s l = s)
    ∧ (∀ dec s pre l post, dec (l.drop 6) = none →
        processLines dec s (pre ++ l :: post)
          = processLines dec (processLines dec s pre) post) := by
  refine ⟨?_, ?_, ?_⟩
  · intro dec s l h
    simp [processLine, h]
  · intro dec s l h
    unfold processLine
    rw [h]
    split <;> rfl
  · intro dec s pre l post h
    have h2 : ∀ s', processLine dec s' l = s' := by
      intro s'
      unfold processLine
      rw [h]
      split <;> rfl
    simp [processLines, List.foldl_append, h2]

/-- C10 witness at concrete lines and an always-failing decoder. -/
theorem malformed_lines_are_inert_witness :
    processLine (fun _ => none) initState "hello".data = initState
    ∧ processLine (fun _ => none) initState "data: x".data = initState
    ∧ processLines (fun _ => none) initState ["data: x".data]
        = processLines (fun _ => none) (processLines (fun _ => none) initState []) [] :=
  ⟨malformed_lines_are_inert.1 (fun _ => none) initState "hello".data (by decide),
    malformed_lines_are_inert.2.1 (fun _ => none) initState "data: x".data rfl,
    malformed_lines_are_inert.2.2 (fun _ => none) initState [] "data: x".data [] rfl⟩

end FollowNet
